import Mathlib

namespace PythonManagerSpec

/-!
# Verification of the Python-Manager core against its design description

Shallow embedding of the repository's modules:

* `PythonExecutor.runScript` (subprocess execution engine with output
  buffering and cooperative cancellation) is embedded as a fold over the
  sequence of Node child-process events (`data` on stdout/stderr, the
  abort trigger of the supplied `AbortSignal`, the `error` event, the
  `close` event).  A promise settles on the first event whose handler
  calls `resolve`/`reject`; later events are ignored.
* `PythonInstaller.commandExists` (tool probe) is embedded over the same
  event alphabet; it registers only a `close` listener, so an `error`
  event is an unhandled event-emitter error.
* `PythonInstaller.ensurePythonInstalled` / `findPython` /
  `installPythonViaPyenv` / `getPythonPathFromPyenv` and the
  `PythonVersionManager` commands they shell out to are embedded in an
  explicit state-passing style over a `World` record that models the
  external environment (filesystem, PATH, pyenv's installed versions,
  pyenv's local-version setting, the interpreter's self-reported path).
  Every external command invocation is logged in a trace of `ExtCall`s.
* `PipManager.listInstalledPackages` output parsing and
  `isPackageInstalled` / `arePackagesInstalled` membership logic are
  embedded as pure functions on the captured `pip freeze` output.
* `PythonManager`'s cached interpreter paths and its
  `override || venvPythonPath || pythonPath` selection are embedded as a
  record with a JavaScript-truthiness-faithful selector.
-/

/-! ## Execution results (src `ExecutionResult` interface) -/

/-- `ExecutionResult` from the executor module: buffered `stdout` and
`stderr`, the observed `exitCode` and the `aborted` flag. -/
structure ExecutionResult where
  stdout : String
  stderr : String
  exitCode : Int
  aborted : Bool
deriving Repr, DecidableEq

/-- How a runner promise settles: `resolve` with a result or `reject`
with an error message. -/
inductive Settled where
  | resolved (r : ExecutionResult)
  | rejected (msg : String)
deriving Repr, DecidableEq

/-! ## Child-process event alphabet

One spawned child process delivers, in some order: chunks on its stdout
and stderr pipes, at most one `error` event (spawn failure, or the
`AbortError` that Node emits when the `signal` option's `AbortSignal`
triggers), and at most one `close` event carrying the exit code
(`none` models JavaScript `null`, i.e. killed by a signal).
`abortTrigger` marks the instant the caller's `AbortSignal` fires, which
flips `abortSignal.aborted` to `true`. -/
inductive ProcEvent where
  | stdoutData (chunk : String)
  | stderrData (chunk : String)
  | abortTrigger
  | errorEvt (errName errMsg : String)
  | closeEvt (code : Option Int)
deriving Repr, DecidableEq

/-- Events whose `runScript` handler settles the promise. -/
def isSettlingEvent : ProcEvent → Bool
  | ProcEvent.errorEvt _ _ => true
  | ProcEvent.closeEvt _ => true
  | _ => false

/-- Events that flip `abortSignal.aborted`. -/
def isAbortTrigger : ProcEvent → Bool
  | ProcEvent.abortTrigger => true
  | _ => false

/-- Concatenation, in arrival order, of every stdout chunk of a trace. -/
def stdoutOf : List ProcEvent → String
  | [] => ""
  | ProcEvent.stdoutData c :: es => c ++ stdoutOf es
  | _ :: es => stdoutOf es

/-- Concatenation, in arrival order, of every stderr chunk of a trace. -/
def stderrOf : List ProcEvent → String
  | [] => ""
  | ProcEvent.stderrData c :: es => c ++ stderrOf es
  | _ :: es => stderrOf es

/-! ## `PythonExecutor.runScript` -/

/-- Mutable state of one `runScript` promise executor: the two output
buffers, the text forwarded live to the host's stdout/stderr when
`withStream` is set, and the current value of `abortSignal.aborted`
(false as well when no signal was supplied). -/
structure RunState where
  stdoutBuf : String
  stderrBuf : String
  streamedOut : String
  streamedErr : String
  sigAborted : Bool
deriving Repr, DecidableEq

/-- State before any event is delivered. -/
def initRunState : RunState :=
  { stdoutBuf := "", stderrBuf := "", streamedOut := "", streamedErr := ""
    sigAborted := false }

/-- The event handlers registered by `runScript`: `data` handlers append
to the buffers (and mirror to the live channels when `withStream`); the
`error` handler resolves `{stdout, stderr, exitCode := -1, aborted := true}`
on `AbortError` and rejects otherwise; the `close` handler resolves
`exitCode := 99, aborted := true` when `abortSignal.aborted` is set, and
otherwise resolves `aborted := false` with the exit code (`-1` for a
`null` code). -/
def runScriptStep (withStream : Bool) (st : RunState) :
    ProcEvent → RunState × Option Settled
  | ProcEvent.stdoutData c =>
      ({ st with
          stdoutBuf := st.stdoutBuf ++ c
          streamedOut := if withStream then st.streamedOut ++ c else st.streamedOut },
        none)
  | ProcEvent.stderrData c =>
      ({ st with
          stderrBuf := st.stderrBuf ++ c
          streamedErr := if withStream then st.streamedErr ++ c else st.streamedErr },
        none)
  | ProcEvent.abortTrigger => ({ st with sigAborted := true }, none)
  | ProcEvent.errorEvt n m =>
      if n = "AbortError" then
        (st, some (Settled.resolved
          { stdout := st.stdoutBuf, stderr := st.stderrBuf
            exitCode := -1, aborted := true }))
      else
        (st, some (Settled.rejected ("Failed to execute script: " ++ m)))
  | ProcEvent.closeEvt code =>
      if st.sigAborted then
        (st, some (Settled.resolved
          { stdout := st.stdoutBuf, stderr := st.stderrBuf
            exitCode := 99, aborted := true }))
      else
        (st, some (Settled.resolved
          { stdout := st.stdoutBuf, stderr := st.stderrBuf
            exitCode := code.getD (-1), aborted := false }))

/-- Delivers the events in order; the first settling handler wins (a
promise settles at most once), later events no longer change the
outcome. `none` means the promise never settled. -/
def runScriptLoop (withStream : Bool) (st : RunState) :
    List ProcEvent → Option Settled
  | [] => none
  | e :: es =>
    match runScriptStep withStream st e with
    | (st', none) => runScriptLoop withStream st' es
    | (_, some s) => some s

/-- Outcome of `PythonExecutor.runScript` on a given delivered event
trace. -/
def runScript (withStream : Bool) (events : List ProcEvent) : Option Settled :=
  runScriptLoop withStream initRunState events

/-- State reached after draining a list of (non-settling) events. -/
def drainState (withStream : Bool) (st : RunState) (events : List ProcEvent) : RunState :=
  events.foldl (fun s e => (runScriptStep withStream s e).1) st

/-! ## `PythonInstaller.commandExists` (tool probe)

`commandExists` spawns the platform lookup command with
`stdio: "ignore"` and registers only a `close` listener that resolves
`code === 0`.  No `error` listener is registered, so an `error` event on
the child process (a spawn failure) is an unhandled event-emitter error:
the promise is not settled by it. -/

/-- The platform lookup command chosen by `commandExists`: `where` on
`win32`, `command -v` otherwise. -/
def lookupCommand (platform : String) : String :=
  if platform = "win32" then "where" else "command -v"

/-- Outcome of the probe promise: settled with a boolean, or an
unhandled `error` event (which by default crashes the Node process and
never resolves the promise). -/
inductive ProbeOutcome where
  | resolvedBool (b : Bool)
  | unhandledError (msg : String)
deriving Repr, DecidableEq

/-- `commandExists` over the delivered event trace: the first `close`
event resolves `code === 0`; an `error` event first is unhandled; all
other events have no registered listener that settles the promise. -/
def commandExists : List ProcEvent → Option ProbeOutcome
  | [] => none
  | ProcEvent.closeEvt code :: _ => some (ProbeOutcome.resolvedBool (code == some 0))
  | ProcEvent.errorEvt _ msg :: _ => some (ProbeOutcome.unhandledError msg)
  | _ :: es => commandExists es

/-! ## JavaScript string helpers used by the pip/installer parsing

`String.prototype.split`, `trim` and `includes` translated on the
character list, so that every definition evaluates by `decide`. -/

/-- `String.prototype.split(sep)` on character lists: splitting an empty
string yields one empty field, exactly as in JavaScript. -/
def splitCharsOn (sep : Char) : List Char → List (List Char)
  | [] => [[]]
  | c :: cs =>
    if c = sep then [] :: splitCharsOn sep cs
    else
      match splitCharsOn sep cs with
      | [] => [[c]]
      | h :: t => (c :: h) :: t

/-- JS `s.split("\n")`. -/
def jsSplitNewline (s : String) : List String :=
  (splitCharsOn (Char.ofNat 10) s.data).map (fun cs => String.mk cs)

/-- Whitespace stripped by JS `trim` (the ASCII part, which is all that
`pip freeze` and `pyenv` output contain). -/
def isJsWhitespace (c : Char) : Bool :=
  c = ' ' || c = Char.ofNat 9 || c = Char.ofNat 10 || c = Char.ofNat 13

/-- JS `s.trim()`. -/
def jsTrim (s : String) : String :=
  String.mk (((s.data.dropWhile isJsWhitespace).reverse.dropWhile isJsWhitespace).reverse)

/-- JS `s.includes(sub)`: substring containment. -/
def jsIncludes (s sub : String) : Bool :=
  decide (sub.data <:+: s.data)

/-! ## `PipManager` freeze-output parsing and membership checks -/

/-- The parsing performed by `listInstalledPackages` on the captured
`pip freeze` stdout: split on newlines, trim each line, drop empty
lines. -/
def parseFreezeOutput (output : String) : List String :=
  ((jsSplitNewline output).map jsTrim).filter (fun line => line ≠ "")

/-- The membership loop of `isPackageInstalled` over the freeze records:
true iff some record `includes` the queried name as a substring. -/
def isPackageInstalledOn (installedPackages : List String) (packageName : String) : Bool :=
  installedPackages.any (fun pkg => jsIncludes pkg packageName)

/-- The loop of `arePackagesInstalled`: every queried name must be a
substring of some record. -/
def arePackagesInstalledOn (installedPackages : List String) (packageNames : List String) : Bool :=
  packageNames.all (fun name => isPackageInstalledOn installedPackages name)

/-! ## `PythonManager` facade state -/

/-- The mutable interpreter-path cache of the `PythonManager` facade:
the base `pythonPath` (default `"python"`), the last ensured
`pythonVersion`, and the cached virtual-environment interpreter
`venvPythonPath`. -/
structure PythonManagerState where
  pythonPath : String
  pythonVersion : Option String
  venvPythonPath : Option String
deriving Repr, DecidableEq

/-- Freshly constructed facade. -/
def initPythonManagerState : PythonManagerState :=
  { pythonPath := "python", pythonVersion := none, venvPythonPath := none }

/-- JS `a || b` with an optional string on the left: `null` and the
empty string are falsy. -/
def jsOrStr : Option String → String → String
  | some s, d => if s = "" then d else s
  | none, d => d

/-- The selector `pythonPathOverride || this.venvPythonPath ||
this.pythonPath` used by every package / execution operation of the
facade (`installPackage`, `runScript`, `listInstalledPackages`, ...). -/
def selectPythonPath (st : PythonManagerState) (pathOverride : Option String) : String :=
  jsOrStr pathOverride (jsOrStr st.venvPythonPath st.pythonPath)

/-- `PythonManager.deleteVenv`: clears the cached venv interpreter path
unconditionally, then forwards the argument path to the venv manager for
directory removal (second component: the directory actually removed). -/
def PythonManagerState.deleteVenv (st : PythonManagerState) (venvPath : String) :
    PythonManagerState × String :=
  ({ st with venvPythonPath := none }, venvPath)

/-! ## `PythonInstaller` / `PythonVersionManager` over an external world

The installer shells out to `pyenv`, `git`, `powershell`, `sudo` and the
`python` interpreter itself, and reads the filesystem.  The external
environment is modelled as a `World`; every external command invocation
is logged as an `ExtCall`.  The responses of the external tools are
modelled from the spec's external-interface table (§6): each command
succeeds exactly when it would exit with code zero, `pyenv install`
registers the version, `pyenv local <v>` requires `v` to be installed
and records it as the local version, and the interpreter's self-report
is the world's `pythonReport`.  The tool probe (`commandExists`, whose
event-level embedding is above) is translated from the source: it
resolves with PATH reachability on win32 and never settles on any other
platform. -/

/-- One external command invocation performed by the installer. -/
inductive ExtCall where
  | probeCommand (cmd : String)
  | sudoDisableAdmin
  | installPyenvWinCall
  | gitClonePyenv (root : String)
  | pyenvVersionQuery
  | pyenvInstall (version : String)
  | pyenvLocalSet (version : String)
  | pyenvLocalQuery
  | pythonSelfProbe
deriving Repr, DecidableEq

/-- The external environment: host platform, filesystem entries,
commands reachable on `PATH`, pyenv's installed versions and local
setting, the observable outputs of `pyenv version` and of the
interpreter's self-report, and whether the fallible bootstrap commands
succeed. -/
structure World where
  platform : String
  fs : List String
  pathTools : List String
  installedVersions : List String
  localVersion : Option String
  pyenvVersionOutput : Option String
  pythonReport : Option String
  winInstallerWorks : Bool
  cloneWorks : Bool
  sudoWorks : Bool
  pyenvInstallWorks : Bool
deriving Repr, DecidableEq

/-- Result of one installer step: the settled value or error, the world
afterwards, and the external commands invoked. -/
abbrev StepResult (α : Type) := Except String α × World × List ExtCall

/-- Sequencing of installer steps: on success the trace accumulates; an
error aborts the continuation but keeps the side effects so far. -/
def seqStep {α β : Type} (x : StepResult α) (f : α → World → StepResult β) : StepResult β :=
  match x with
  | (Except.ok a, w, t) =>
    match f a w with
    | (r, w2, t2) => (r, w2, t ++ t2)
  | (Except.error e, w, t) => (Except.error e, w, t)

/-- `fs.existsSync`. -/
def fsExists (w : World) (p : String) : Bool := w.fs.contains p

/-- `path.join(venvPath, "Scripts", "python.exe")` on Windows-class
platforms, `path.join(venvPath, "bin", "python")` otherwise. -/
def venvInteriorPython (platform venvPath : String) : String :=
  if platform = "win32" then venvPath ++ "\\Scripts\\python.exe"
  else venvPath ++ "/bin/python"

/-- `PythonInstaller.commandExists` over the world (its event-level
embedding is `commandExists` above).  The probe spawns `where <cmd>` on
win32 and `command -v <cmd>` elsewhere, registering only a `close`
handler.  On win32 the lookup binary exists, so the child closes and
the promise resolves with the `PATH` reachability of `cmd` (exit code
zero exactly when found).  On every other platform the spawned program
path is the literal string `"command -v"`, which is not an executable:
the spawn fails with an `error` event that has no listener, so the
promise never settles and nothing downstream of the `await` ever runs —
embedded as a propagating error, which is indistinguishable here since
no caller in the modelled code catches it. -/
def probeTool (cmd : String) (w : World) : StepResult Bool :=
  if w.platform = "win32" then
    (Except.ok (w.pathTools.contains cmd), w, [ExtCall.probeCommand cmd])
  else
    (Except.error "unhandled error event: spawn of command -v fails", w,
      [ExtCall.probeCommand cmd])

/-- `disableAdminRights`: elevated PowerShell `Set-ExecutionPolicy` via
`sudo-prompt`; succeeds or fails according to the world. -/
def disableAdminRights (w : World) : StepResult Unit :=
  if w.sudoWorks then (Except.ok (), w, [ExtCall.sudoDisableAdmin])
  else (Except.error "sudo command failed", w, [ExtCall.sudoDisableAdmin])

/-- `PythonVersionManager.installVersion`: `pyenv install <version>`;
modelled from the spec (§6): zero exit registers the version. -/
def installVersion (version : String) (w : World) : StepResult Unit :=
  if w.pathTools.contains "pyenv" && w.pyenvInstallWorks then
    (Except.ok (), { w with installedVersions := version :: w.installedVersions },
      [ExtCall.pyenvInstall version])
  else
    (Except.error "pyenv install exited with code 1", w, [ExtCall.pyenvInstall version])

/-- The local-version condition checked (through pyenv's exit code) by
`pyenv local <version>`: the tool is reachable and the version is
installed. -/
def localSetOk (version : String) (w : World) : Bool :=
  w.pathTools.contains "pyenv" && w.installedVersions.contains version

/-- `PythonVersionManager.setLocalVersion` (also the
`pyenv local <version>` probe inside `findPython`): modelled from the
spec (§6): zero exit exactly when the version is installed; records the
local version. -/
def setLocalVersion (version : String) (w : World) : StepResult Unit :=
  if localSetOk version w then
    (Except.ok (), { w with localVersion := some version }, [ExtCall.pyenvLocalSet version])
  else
    (Except.error "pyenv local exited with code 1", w, [ExtCall.pyenvLocalSet version])

/-- The `pyenv version` query at the top of `installPythonViaPyenv`:
resolves with the world's observable output. -/
def pyenvVersionQuery (w : World) : StepResult String :=
  if w.pathTools.contains "pyenv" then
    match w.pyenvVersionOutput with
    | some out => (Except.ok out, w, [ExtCall.pyenvVersionQuery])
    | none => (Except.error "pyenv version exited with code 1", w, [ExtCall.pyenvVersionQuery])
  else (Except.error "pyenv version exited with code 1", w, [ExtCall.pyenvVersionQuery])

/-- `PythonVersionManager.getLocalVersion` (the `pyenv local` query at
the end of `installPythonViaPyenv`). -/
def getLocalVersion (w : World) : StepResult String :=
  if w.pathTools.contains "pyenv" then
    match w.localVersion with
    | some v => (Except.ok v, w, [ExtCall.pyenvLocalQuery])
    | none => (Except.error "pyenv local command exited with code 1", w, [ExtCall.pyenvLocalQuery])
  else (Except.error "pyenv local command exited with code 1", w, [ExtCall.pyenvLocalQuery])

/-- The `python -c "import sys; print(sys.executable)"` self-report. -/
def pythonSelfReport (w : World) : StepResult String :=
  match w.pythonReport with
  | some out => (Except.ok out, w, [ExtCall.pythonSelfProbe])
  | none => (Except.error "python probe failed", w, [ExtCall.pythonSelfProbe])

/-- `PythonInstaller.getPythonPathFromPyenv`: ask the active interpreter
for its own path, trim it, and require the reported path to exist on the
filesystem (a reported-but-missing path is a fatal inconsistency). -/
def getPythonPathFromPyenv (version : String) (w : World) : StepResult String :=
  seqStep (pythonSelfReport w) (fun out w1 =>
    if fsExists w1 (jsTrim out) then (Except.ok (jsTrim out), w1, [])
    else
      (Except.error
        ("Python executable not found in pyenv prefix for version " ++ version ++ " "),
        w1, []))

/-- The pyenv arm of `findPython`: try `pyenv local <version>`; on
failure return `null` (the "needs installation" signal); on success
delegate to `getPythonPathFromPyenv` (whose errors propagate). -/
def findPythonPyenvLookup (version : String) (w : World) : StepResult (Option String) :=
  match setLocalVersion version w with
  | (Except.ok _, w1, t1) =>
    (match getPythonPathFromPyenv version w1 with
     | (Except.ok p, w2, t2) => (Except.ok (some p), w2, t1 ++ t2)
     | (Except.error e, w2, t2) => (Except.error e, w2, t1 ++ t2))
  | (Except.error _, w1, t1) => (Except.ok none, w1, t1)

/-- `PythonInstaller.findPython`: if a (truthy) venv hint path exists on
the filesystem, answer from its interior executable only — the exact
interior path when it exists, `null` otherwise, with no fall-through;
when the hint is absent, falsy, or does not exist, fall through to the
pyenv lookup. -/
def findPython (version : String) (venvPath : Option String) (w : World) :
    StepResult (Option String) :=
  match venvPath with
  | some vp =>
    if vp ≠ "" && fsExists w vp then
      (if fsExists w (venvInteriorPython w.platform vp) then
        (Except.ok (some (venvInteriorPython w.platform vp)), w, [])
      else (Except.ok none, w, []))
    else findPythonPyenvLookup version w
  | none => findPythonPyenvLookup version w

/-- `PythonInstaller.installPyenvWin`: disable the execution policy,
then run the pyenv-win bootstrap script; success puts `pyenv` on the
`PATH`. -/
def installPyenvWin (w : World) : StepResult Unit :=
  seqStep (disableAdminRights w) (fun _ w1 =>
    if w1.winInstallerWorks then
      (Except.ok (), { w1 with pathTools := "pyenv" :: w1.pathTools },
        [ExtCall.installPyenvWinCall])
    else
      (Except.error "pyenv-win installation exited with code 1", w1,
        [ExtCall.installPyenvWinCall]))

/-- `PythonInstaller.installPyenv` (posix): clone the pyenv repository
unless the target directory already exists, then put `pyenv` on the
current process `PATH`. -/
def installPyenv (pyenvRoot : String) (w : World) : StepResult Unit :=
  if fsExists w pyenvRoot then
    (Except.ok (), { w with pathTools := "pyenv" :: w.pathTools }, [])
  else if w.cloneWorks then
    (Except.ok (), { w with fs := pyenvRoot :: w.fs, pathTools := "pyenv" :: w.pathTools },
      [ExtCall.gitClonePyenv pyenvRoot])
  else (Except.error "git exited with code 1", w, [ExtCall.gitClonePyenv pyenvRoot])

/-- The `try { pyenv version ... } catch { ... }` opening of
`installPythonViaPyenv`: whether the trimmed lines of `pyenv version`
list the version; query errors are swallowed as `false`. -/
def pyenvVersionCheck (version : String) (w : World) : StepResult Bool :=
  match pyenvVersionQuery w with
  | (Except.ok out, w1, t1) =>
    (Except.ok (((jsSplitNewline out).map jsTrim).contains version), w1, t1)
  | (Except.error _, w1, t1) => (Except.ok false, w1, t1)

/-- The installing tail of `installPythonViaPyenv`: disable protections,
`pyenv install <version>`, `pyenv local <version>`, read `pyenv local`
back. -/
def installPythonSteps (version : String) (w : World) : StepResult Unit :=
  seqStep (disableAdminRights w) (fun _ w2 =>
    seqStep (installVersion version w2) (fun _ w3 =>
      seqStep (setLocalVersion version w3) (fun _ w4 =>
        seqStep (getLocalVersion w4) (fun _ w5 => (Except.ok (), w5, [])))))

/-- `PythonInstaller.installPythonViaPyenv`: skip installation when the
version is already listed; otherwise run the installing tail. -/
def installPythonViaPyenv (version : String) (w : World) : StepResult Unit :=
  seqStep (pyenvVersionCheck version w) (fun already w1 =>
    if already then (Except.ok (), w1, []) else installPythonSteps version w1)

/-- The opening `if (process.platform === "win32")` block of
`ensurePythonInstalled`: probe for pyenv and bootstrap pyenv-win when
absent; a no-op elsewhere. -/
def windowsBootstrap (w : World) : StepResult Unit :=
  if w.platform = "win32" then
    seqStep (probeTool "pyenv" w) (fun present w1 =>
      if present then (Except.ok (), w1, []) else installPyenvWin w1)
  else (Except.ok (), w, [])

/-- The tail of `ensurePythonInstalled` reached when `findPython`
returned `null`: install the version via pyenv on the supported
platforms, resolve the interpreter path, or fail on an unsupported
platform.  The posix arm first awaits the tool probe (whose promise
never settles on posix, see `probeTool`), then bootstraps pyenv itself
when absent. -/
def installBranch (version pyenvPath : String) (w : World) : StepResult String :=
  if w.platform = "win32" then
    seqStep (installPythonViaPyenv version w) (fun _ w3 =>
      getPythonPathFromPyenv version w3)
  else if w.platform = "linux" || w.platform = "darwin" then
    seqStep (probeTool "pyenv" w) (fun present w3 =>
      seqStep
        (if present then (Except.ok (), w3, []) else installPyenv pyenvPath w3)
        (fun _ w4 =>
          seqStep (installPythonViaPyenv version w4) (fun _ w5 =>
            getPythonPathFromPyenv version w5)))
  else
    (Except.error "Unsupported platform for automatic Python installation", w, [])

/-- `PythonInstaller.ensurePythonInstalled`: on win32 bootstrap
pyenv-win when absent; look for an existing installation; return it when
found; otherwise install on the supported platforms or fail on an
unsupported one. -/
def ensurePythonInstalled (version pyenvPath : String) (venvPath : Option String)
    (w : World) : StepResult String :=
  seqStep (windowsBootstrap w)
    (fun _ w1 =>
      seqStep (findPython version venvPath w1) (fun existing w2 =>
        match existing with
        | some p => (Except.ok p, w2, [])
        | none => installBranch version pyenvPath w2))

/-- The installation side effects: pyenv-win bootstrap, pyenv clone, and
`pyenv install` invocations. -/
def isInstallCall : ExtCall → Bool
  | ExtCall.installPyenvWinCall => true
  | ExtCall.gitClonePyenv _ => true
  | ExtCall.pyenvInstall _ => true
  | _ => false

/-! ### Readiness of a world for a reinstall-free `ensurePythonInstalled`

These predicates summarize, over a `World`, which of the resolver's
paths can succeed without installation side effects. -/

/-- The trimmed lines of the observable `pyenv version` output list the
version. -/
def versionListed (version : String) (w : World) : Bool :=
  match w.pyenvVersionOutput with
  | some out => ((jsSplitNewline out).map jsTrim).contains version
  | none => false

/-- The interpreter self-report succeeds and the reported (trimmed) path
exists on the filesystem — i.e. `getPythonPathFromPyenv` succeeds. -/
def reportUsable (w : World) : Bool :=
  match w.pythonReport with
  | some r => fsExists w (jsTrim r)
  | none => false

/-- `findPython`'s pyenv arm succeeds: the tool is reachable, the
version is installed, and the interpreter path resolves. -/
def pyenvReady (version : String) (w : World) : Bool :=
  localSetOk version w && reportUsable w

/-- The installer has a strategy for this platform. -/
def platformSupported (w : World) : Bool :=
  decide (w.platform = "win32") || decide (w.platform = "linux")
    || decide (w.platform = "darwin")

/-- The install branch short-circuits without side effects: the
`pyenv version` check lists the version and the interpreter path
resolves, on a supported platform. -/
def alreadyReady (version : String) (w : World) : Bool :=
  w.pathTools.contains "pyenv" && versionListed version w && reportUsable w
    && platformSupported w

/-- The venv hint is truthy and its path exists, so `findPython` answers
from the hint alone. -/
def venvActive (w : World) (venvPath : Option String) : Bool :=
  match venvPath with
  | some vp => decide (vp ≠ "") && fsExists w vp
  | none => false

/-- The venv hint is active and its interior executable exists. -/
def venvReady (w : World) (venvPath : Option String) : Bool :=
  match venvPath with
  | some vp =>
    decide (vp ≠ "") && fsExists w vp && fsExists w (venvInteriorPython w.platform vp)
  | none => false

/-- The world resolves `ensurePythonInstalled` without any installation
side effect: on win32 the manager is already present, and one of the
side-effect-free paths (venv hint, pyenv lookup, already-listed install
check) succeeds.  The already-listed path only counts on win32: on any
other platform the install branch first awaits the tool probe, whose
promise never settles (see `probeTool`). -/
def ensureReady (version : String) (venvPath : Option String) (w : World) : Bool :=
  (if w.platform = "win32" then w.pathTools.contains "pyenv" else true)
    && (venvReady w venvPath || pyenvReady version w
        || (alreadyReady version w && decide (w.platform = "win32")))

/-! ## Theorems -/

/-! ### Helper lemmas on the event fold -/

theorem runScriptStep_nonsettling (withStream : Bool) (st : RunState)
    (e : ProcEvent) (h : isSettlingEvent e = false) :
    (runScriptStep withStream st e).2 = none := by
  cases e <;> simp [isSettlingEvent] at h ⊢ <;> simp [runScriptStep]

theorem drainState_cons (withStream : Bool) (st : RunState) (e : ProcEvent)
    (es : List ProcEvent) :
    drainState withStream st (e :: es)
      = drainState withStream (runScriptStep withStream st e).1 es := rfl

theorem runScriptLoop_append (withStream : Bool) (st : RunState)
    (pre l : List ProcEvent) (hpre : ∀ e ∈ pre, isSettlingEvent e = false) :
    runScriptLoop withStream st (pre ++ l)
      = runScriptLoop withStream (drainState withStream st pre) l := by
  induction pre generalizing st with
  | nil => simp [drainState]
  | cons e es ih =>
    have he : isSettlingEvent e = false := hpre e (by simp)
    have h2 := runScriptStep_nonsettling withStream st e he
    simp only [List.cons_append, runScriptLoop, drainState_cons]
    cases hstep : runScriptStep withStream st e with
    | mk st' o =>
      rw [hstep] at h2
      simp only at h2
      subst h2
      exact ih st' (fun x hx => hpre x (by simp [hx]))

theorem drainState_stdoutBuf (withStream : Bool) (st : RunState)
    (events : List ProcEvent) :
    (drainState withStream st events).stdoutBuf = st.stdoutBuf ++ stdoutOf events := by
  induction events generalizing st with
  | nil => simp [drainState, stdoutOf]
  | cons e es ih =>
    rw [drainState_cons, ih]
    cases e <;> simp [runScriptStep, stdoutOf, String.append_assoc] <;> split <;> simp

theorem drainState_stderrBuf (withStream : Bool) (st : RunState)
    (events : List ProcEvent) :
    (drainState withStream st events).stderrBuf = st.stderrBuf ++ stderrOf events := by
  induction events generalizing st with
  | nil => simp [drainState, stderrOf]
  | cons e es ih =>
    rw [drainState_cons, ih]
    cases e <;> simp [runScriptStep, stderrOf, String.append_assoc] <;> split <;> simp

theorem drainState_sigAborted (withStream : Bool) (st : RunState)
    (events : List ProcEvent) (h : ∀ e ∈ events, isAbortTrigger e = false) :
    (drainState withStream st events).sigAborted = st.sigAborted := by
  induction events generalizing st with
  | nil => simp [drainState]
  | cons e es ih =>
    have hes : ∀ x ∈ es, isAbortTrigger x = false := fun x hx => h x (by simp [hx])
    have he : isAbortTrigger e = false := h e (by simp)
    rw [drainState_cons, ih _ hes]
    cases e <;> simp [isAbortTrigger] at he ⊢ <;>
      simp [runScriptStep] <;> split <;> simp

theorem runScriptLoop_rejected_inv (withStream : Bool) (st : RunState)
    (events : List ProcEvent) (m : String)
    (h : runScriptLoop withStream st events = some (Settled.rejected m)) :
    ∃ n msg, ProcEvent.errorEvt n msg ∈ events ∧ n ≠ "AbortError" := by
  induction events generalizing st with
  | nil => simp [runScriptLoop] at h
  | cons e es ih =>
    cases e with
    | stdoutData c =>
      simp only [runScriptLoop, runScriptStep] at h
      obtain ⟨n, msg, hmem, hne⟩ := ih _ h
      exact ⟨n, msg, by simp [hmem], hne⟩
    | stderrData c =>
      simp only [runScriptLoop, runScriptStep] at h
      obtain ⟨n, msg, hmem, hne⟩ := ih _ h
      exact ⟨n, msg, by simp [hmem], hne⟩
    | abortTrigger =>
      simp only [runScriptLoop, runScriptStep] at h
      obtain ⟨n, msg, hmem, hne⟩ := ih _ h
      exact ⟨n, msg, by simp [hmem], hne⟩
    | errorEvt n msg =>
      simp only [runScriptLoop, runScriptStep] at h
      by_cases hn : n = "AbortError"
      · simp [hn] at h
      · exact ⟨n, msg, by simp, hn⟩
    | closeEvt code =>
      simp only [runScriptLoop, runScriptStep] at h
      by_cases hab : st.sigAborted
      · simp [hab] at h
      · simp [hab] at h

/-- C1: if the cancellation handle is triggered before the process
naturally exits — i.e. the `AbortError` error event is delivered before
any close event — `runScript` resolves (does not reject) with
`aborted = true`, the sentinel `exitCode = -1`, and `stdout`/`stderr`
equal to exactly the output buffered before cancellation was observed. -/
theorem runScript_cancelled_before_exit (withStream : Bool)
    (pre rest : List ProcEvent) (errMsg : String)
    (hpre : ∀ e ∈ pre, isSettlingEvent e = false) :
    runScript withStream (pre ++ ProcEvent.errorEvt "AbortError" errMsg :: rest)
      = some (Settled.resolved
          { stdout := stdoutOf pre, stderr := stderrOf pre
            exitCode := -1, aborted := true }) := by
  unfold runScript
  rw [runScriptLoop_append _ _ _ _ hpre]
  simp [runScriptLoop, runScriptStep, drainState_stdoutBuf, drainState_stderrBuf,
    initRunState]

/-- Witness for C1: a run that buffers one stdout chunk and one stderr
chunk, then is cancelled before its close event. -/
theorem runScript_cancelled_before_exit_witness :
    runScript false
        [ProcEvent.stdoutData "hi", ProcEvent.stderrData "oops",
          ProcEvent.abortTrigger,
          ProcEvent.errorEvt "AbortError" "The operation was aborted",
          ProcEvent.closeEvt none]
      = some (Settled.resolved
          { stdout := "hi", stderr := "oops", exitCode := -1, aborted := true }) := by
  have h := runScript_cancelled_before_exit false
    [ProcEvent.stdoutData "hi", ProcEvent.stderrData "oops", ProcEvent.abortTrigger]
    [ProcEvent.closeEvt none] "The operation was aborted" (by decide)
  simpa [stdoutOf, stderrOf] using h

/-- C2: a process that launches and exits naturally with exit code `N`
(no cancellation, no spawn error) makes `runScript` resolve with
`aborted = false`, `exitCode = N`, and `stdout`/`stderr` equal to the
in-order concatenation of every chunk written on each channel. -/
theorem runScript_natural_exit (withStream : Bool)
    (pre rest : List ProcEvent) (code : Int)
    (hpre : ∀ e ∈ pre, isSettlingEvent e = false ∧ isAbortTrigger e = false) :
    runScript withStream (pre ++ ProcEvent.closeEvt (some code) :: rest)
      = some (Settled.resolved
          { stdout := stdoutOf pre, stderr := stderrOf pre
            exitCode := code, aborted := false }) := by
  unfold runScript
  rw [runScriptLoop_append _ _ _ _ (fun e he => (hpre e he).1)]
  have hab := drainState_sigAborted withStream initRunState pre
    (fun e he => (hpre e he).2)
  simp only [initRunState] at hab
  simp [runScriptLoop, runScriptStep, hab, drainState_stdoutBuf,
    drainState_stderrBuf, initRunState]

/-- Witness for C2: interleaved stdout/stderr chunks and a natural exit
with the non-zero code 7. -/
theorem runScript_natural_exit_witness :
    runScript true
        [ProcEvent.stdoutData "a", ProcEvent.stderrData "e1",
          ProcEvent.stdoutData "b", ProcEvent.closeEvt (some 7)]
      = some (Settled.resolved
          { stdout := "ab", stderr := "e1", exitCode := 7, aborted := false }) := by
  have h := runScript_natural_exit true
    [ProcEvent.stdoutData "a", ProcEvent.stderrData "e1", ProcEvent.stdoutData "b"]
    [] 7 (by decide)
  simpa [stdoutOf, stderrOf] using h

/-- C7: a launch failure (an `error` event that is not the cancellation
`AbortError`) makes `runScript` reject with no `ExecutionResult`; and a
rejection can only arise from such an event — launch failure is the only
way a run fails rather than resolving. -/
theorem runScript_launch_failure_iff (withStream : Bool) :
    (∀ (pre rest : List ProcEvent) (errName errMsg : String),
        (∀ e ∈ pre, isSettlingEvent e = false) → errName ≠ "AbortError" →
        runScript withStream (pre ++ ProcEvent.errorEvt errName errMsg :: rest)
          = some (Settled.rejected ("Failed to execute script: " ++ errMsg)))
    ∧ (∀ (events : List ProcEvent) (m : String),
        runScript withStream events = some (Settled.rejected m) →
        ∃ n msg, ProcEvent.errorEvt n msg ∈ events ∧ n ≠ "AbortError") := by
  constructor
  · intro pre rest errName errMsg hpre hne
    unfold runScript
    rw [runScriptLoop_append _ _ _ _ hpre]
    simp [runScriptLoop, runScriptStep, hne]
  · intro events m h
    exact runScriptLoop_rejected_inv withStream initRunState events m h

/-- Witness for C7: a nonexistent interpreter whose spawn fails with
`ENOENT` rejects the run. -/
theorem runScript_launch_failure_iff_witness :
    runScript false [ProcEvent.errorEvt "Error" "spawn python ENOENT"]
      = some (Settled.rejected "Failed to execute script: spawn python ENOENT") := by
  have h := (runScript_launch_failure_iff false).1 [] []
    "Error" "spawn python ENOENT" (by simp) (by decide)
  simpa using h

theorem commandExists_append (pre l : List ProcEvent)
    (hpre : ∀ e ∈ pre, isSettlingEvent e = false) :
    commandExists (pre ++ l) = commandExists l := by
  induction pre with
  | nil => rfl
  | cons e es ih =>
    have he : isSettlingEvent e = false := hpre e (by simp)
    cases e <;> simp [isSettlingEvent] at he ⊢ <;>
      exact ih (fun x hx => hpre x (by simp [hx]))

/-- Counterexample to C5 as stated: when spawning the lookup command
itself errors (e.g. `ENOENT` for the lookup binary), `commandExists`
does not resolve to a boolean at all — the error event is unhandled —
instead of resolving to `false`. -/
theorem commandExists_spawn_error_cex :
    commandExists [ProcEvent.errorEvt "Error" "spawn command -v ENOENT"]
        = some (ProbeOutcome.unhandledError "spawn command -v ENOENT")
      ∧ commandExists [ProcEvent.errorEvt "Error" "spawn command -v ENOENT"]
          ≠ some (ProbeOutcome.resolvedBool false)
      ∧ commandExists [ProcEvent.errorEvt "Error" "spawn command -v ENOENT"]
          ≠ some (ProbeOutcome.resolvedBool true) := by
  refine ⟨rfl, ?_, ?_⟩ <;> simp [commandExists]

/-- C5 (amended): `commandExists` invokes the platform lookup command
(`where` on Windows-class platforms, `command -v` otherwise) and, when a
close event is observed first, resolves to true exactly on a zero exit
code; but a spawn error is NOT converted to "not found" — the `error`
event has no registered handler, so the probe signals an unhandled error
and never resolves to `false`. -/
theorem commandExists_close_resolves (pre rest : List ProcEvent)
    (hpre : ∀ e ∈ pre, isSettlingEvent e = false) :
    (∀ code : Option Int,
        commandExists (pre ++ ProcEvent.closeEvt code :: rest)
          = some (ProbeOutcome.resolvedBool (code == some 0)))
    ∧ (∀ errName errMsg : String,
        commandExists (pre ++ ProcEvent.errorEvt errName errMsg :: rest)
          = some (ProbeOutcome.unhandledError errMsg))
    ∧ lookupCommand "win32" = "where"
    ∧ lookupCommand "linux" = "command -v" := by
  refine ⟨?_, ?_, rfl, rfl⟩
  · intro code
    rw [commandExists_append _ _ hpre]
    rfl
  · intro errName errMsg
    rw [commandExists_append _ _ hpre]
    rfl

/-- Witness for the amended C5: both settled probe outcomes at concrete
traces. -/
theorem commandExists_close_resolves_witness :
    commandExists [ProcEvent.stdoutData "x", ProcEvent.closeEvt (some 0)]
        = some (ProbeOutcome.resolvedBool true)
      ∧ commandExists [ProcEvent.closeEvt (some 1)]
          = some (ProbeOutcome.resolvedBool false)
      ∧ commandExists [ProcEvent.errorEvt "Error" "boom"]
          = some (ProbeOutcome.unhandledError "boom") := by
  refine ⟨?_, ?_, ?_⟩
  · have h := (commandExists_close_resolves [ProcEvent.stdoutData "x"] []
      (by decide)).1 (some 0)
    simpa using h
  · have h := (commandExists_close_resolves [] [] (by simp)).1 (some 1)
    simpa using h
  · have h := (commandExists_close_resolves [] [] (by simp)).2.1 "Error" "boom"
    simpa using h

/-- C8: the `pip freeze` output `"numpy==1.24.0\npandas==2.0.0\n"`
parses to exactly the records `numpy==1.24.0` and `pandas==2.0.0`
(newline-split, trimmed, empty lines dropped), and the containment check
for `"numpy"` against it returns true. -/
theorem parseFreezeOutput_example :
    parseFreezeOutput "numpy==1.24.0\npandas==2.0.0\n"
        = ["numpy==1.24.0", "pandas==2.0.0"]
      ∧ isPackageInstalledOn (parseFreezeOutput "numpy==1.24.0\npandas==2.0.0\n")
          "numpy" = true := by
  constructor <;> decide

/-- C9: `isPackageInstalled` decides membership by substring containment
over the freeze records — it returns true exactly when the queried name
is an infix of some record, so partial names such as `"num"` and
`"pan"` are reported as installed against
`numpy==1.24.0` / `pandas==2.0.0` even though no package of that exact
name exists. -/
theorem isPackageInstalledOn_substring_semantics :
    (∀ (pkgs : List String) (name : String),
        isPackageInstalledOn pkgs name = true
          ↔ ∃ pkg ∈ pkgs, name.data <:+: pkg.data)
      ∧ isPackageInstalledOn ["numpy==1.24.0", "pandas==2.0.0"] "num" = true
      ∧ isPackageInstalledOn ["numpy==1.24.0", "pandas==2.0.0"] "pan" = true
      ∧ ("num" ∉ (["numpy==1.24.0", "pandas==2.0.0"] : List String)
          ∧ "pan" ∉ (["numpy==1.24.0", "pandas==2.0.0"] : List String)) := by
  refine ⟨?_, by decide, by decide, by decide, by decide⟩
  intro pkgs name
  simp [isPackageInstalledOn, jsIncludes]

/-! ### Characterization lemmas for the installer steps -/

theorem setLocalVersion_pos (version : String) (w : World)
    (h : localSetOk version w = true) :
    setLocalVersion version w
      = (Except.ok (), { w with localVersion := some version },
          [ExtCall.pyenvLocalSet version]) := by
  unfold setLocalVersion
  rw [if_pos h]

theorem setLocalVersion_neg (version : String) (w : World)
    (h : localSetOk version w = false) :
    setLocalVersion version w
      = (Except.error "pyenv local exited with code 1", w,
          [ExtCall.pyenvLocalSet version]) := by
  unfold setLocalVersion
  rw [if_neg (by simp [h])]

theorem getPythonPathFromPyenv_ok_eq (version : String) (w : World) (out : String)
    (hrep : w.pythonReport = some out) (hfs : fsExists w (jsTrim out) = true) :
    getPythonPathFromPyenv version w
      = (Except.ok (jsTrim out), w, [ExtCall.pythonSelfProbe]) := by
  unfold getPythonPathFromPyenv pythonSelfReport seqStep
  rw [hrep]
  simp [hfs]

theorem getPythonPathFromPyenv_world_calls (version : String) (w : World) :
    (getPythonPathFromPyenv version w).2.1 = w
      ∧ (getPythonPathFromPyenv version w).2.2 = [ExtCall.pythonSelfProbe] := by
  unfold getPythonPathFromPyenv pythonSelfReport seqStep
  cases hrep : w.pythonReport with
  | none => simp
  | some out =>
    by_cases hfs : fsExists w (jsTrim out) = true
    · simp [hfs]
    · simp at hfs
      simp [hfs]

theorem getPythonPathFromPyenv_ok_inv (version : String) (w : World)
    (p : String) (w2 : World) (t : List ExtCall)
    (h : getPythonPathFromPyenv version w = (Except.ok p, w2, t)) :
    w2 = w ∧ ∃ out, w.pythonReport = some out ∧ p = jsTrim out
      ∧ fsExists w (jsTrim out) = true := by
  unfold getPythonPathFromPyenv pythonSelfReport seqStep at h
  cases hrep : w.pythonReport with
  | none => rw [hrep] at h; simp at h
  | some out =>
    rw [hrep] at h
    by_cases hfs : fsExists w (jsTrim out) = true
    · simp [hfs] at h
      exact ⟨h.2.1.symm, out, rfl, h.1.symm, hfs⟩
    · simp at hfs
      simp [hfs] at h

theorem findPythonPyenvLookup_none_eq (version : String) (w : World)
    (h : localSetOk version w = false) :
    findPythonPyenvLookup version w
      = (Except.ok none, w, [ExtCall.pyenvLocalSet version]) := by
  unfold findPythonPyenvLookup
  rw [setLocalVersion_neg version w h]

theorem findPythonPyenvLookup_found_eq (version : String) (w : World) (out : String)
    (hc : localSetOk version w = true) (hrep : w.pythonReport = some out)
    (hfs : fsExists w (jsTrim out) = true) :
    findPythonPyenvLookup version w
      = (Except.ok (some (jsTrim out)), { w with localVersion := some version },
          [ExtCall.pyenvLocalSet version, ExtCall.pythonSelfProbe]) := by
  unfold findPythonPyenvLookup
  simp only [setLocalVersion_pos version w hc]
  simp only [getPythonPathFromPyenv_ok_eq version { w with localVersion := some version } out
    hrep hfs]
  rfl

theorem findPythonPyenvLookup_world (version : String) (w : World) :
    (findPythonPyenvLookup version w).2.1 = w
      ∨ (findPythonPyenvLookup version w).2.1 = { w with localVersion := some version } := by
  unfold findPythonPyenvLookup
  by_cases hc : localSetOk version w = true
  · simp only [setLocalVersion_pos version w hc]
    rcases hg : getPythonPathFromPyenv version { w with localVersion := some version }
      with ⟨rg, wg, tg⟩
    have hw := (getPythonPathFromPyenv_world_calls version
      { w with localVersion := some version }).1
    rw [hg] at hw
    simp only [] at hw
    cases rg <;> simp [hw]
  · simp at hc
    simp only [setLocalVersion_neg version w hc]
    simp

theorem findPythonPyenvLookup_calls (version : String) (w : World) :
    ∀ c ∈ (findPythonPyenvLookup version w).2.2,
      c = ExtCall.pyenvLocalSet version ∨ c = ExtCall.pythonSelfProbe := by
  unfold findPythonPyenvLookup
  by_cases hc : localSetOk version w = true
  · simp only [setLocalVersion_pos version w hc]
    rcases hg : getPythonPathFromPyenv version { w with localVersion := some version }
      with ⟨rg, wg, tg⟩
    have ht := (getPythonPathFromPyenv_world_calls version
      { w with localVersion := some version }).2
    rw [hg] at ht
    simp only [] at ht
    cases rg <;> simp [ht]
  · simp at hc
    simp only [setLocalVersion_neg version w hc]
    simp

theorem findPython_world (version : String) (venvPath : Option String) (w : World) :
    (findPython version venvPath w).2.1 = w
      ∨ (findPython version venvPath w).2.1 = { w with localVersion := some version } := by
  unfold findPython
  cases venvPath with
  | none => exact findPythonPyenvLookup_world version w
  | some vp =>
    dsimp only
    by_cases hact : (decide (vp ≠ "") && fsExists w vp) = true
    · rw [if_pos hact]
      split <;> simp
    · rw [if_neg hact]
      exact findPythonPyenvLookup_world version w

theorem findPython_calls (version : String) (venvPath : Option String) (w : World) :
    ∀ c ∈ (findPython version venvPath w).2.2,
      c = ExtCall.pyenvLocalSet version ∨ c = ExtCall.pythonSelfProbe := by
  unfold findPython
  cases venvPath with
  | none => exact findPythonPyenvLookup_calls version w
  | some vp =>
    dsimp only
    by_cases hact : (decide (vp ≠ "") && fsExists w vp) = true
    · rw [if_pos hact]
      split <;> simp
    · rw [if_neg hact]
      exact findPythonPyenvLookup_calls version w

theorem findPython_active_found_eq (version vp : String) (w : World)
    (ha : (decide (vp ≠ "") && fsExists w vp) = true)
    (hi : fsExists w (venvInteriorPython w.platform vp) = true) :
    findPython version (some vp) w
      = (Except.ok (some (venvInteriorPython w.platform vp)), w, []) := by
  unfold findPython
  dsimp only
  rw [if_pos ha, if_pos hi]

theorem findPython_active_null_eq (version vp : String) (w : World)
    (ha : (decide (vp ≠ "") && fsExists w vp) = true)
    (hi : fsExists w (venvInteriorPython w.platform vp) = false) :
    findPython version (some vp) w = (Except.ok none, w, []) := by
  unfold findPython
  dsimp only
  rw [if_pos ha, if_neg (by simp [hi])]

theorem findPython_inactive_eq (version : String) (venvPath : Option String) (w : World)
    (ha : venvActive w venvPath = false) :
    findPython version venvPath w = findPythonPyenvLookup version w := by
  unfold findPython
  cases venvPath with
  | none => rfl
  | some vp =>
    dsimp only
    have ha' : (decide (vp ≠ "") && fsExists w vp) = false := ha
    rw [if_neg (by rw [ha']; simp)]

theorem findPythonPyenvLookup_ok_inv (version : String) (w : World)
    (r : Option String) (w2 : World) (t : List ExtCall)
    (h : findPythonPyenvLookup version w = (Except.ok r, w2, t)) :
    (r = none ∧ w2 = w ∧ localSetOk version w = false)
      ∨ (∃ out, w.pythonReport = some out ∧ r = some (jsTrim out)
          ∧ w2 = { w with localVersion := some version }
          ∧ fsExists w (jsTrim out) = true ∧ localSetOk version w = true) := by
  by_cases hc : localSetOk version w = true
  · unfold findPythonPyenvLookup at h
    simp only [setLocalVersion_pos version w hc] at h
    rcases hg : getPythonPathFromPyenv version { w with localVersion := some version }
      with ⟨rg, wg, tg⟩
    rw [hg] at h
    cases rg with
    | error e => simp at h
    | ok q =>
      simp only [Prod.mk.injEq, Except.ok.injEq] at h
      have hinv := getPythonPathFromPyenv_ok_inv version _ q wg tg hg
      obtain ⟨hw, out, hrep, hq, hfs⟩ := hinv
      right
      refine ⟨out, hrep, ?_, ?_, hfs, hc⟩
      · rw [← h.1, hq]
      · rw [← h.2.1, hw]
  · simp at hc
    rw [findPythonPyenvLookup_none_eq version w hc] at h
    simp only [Prod.mk.injEq, Except.ok.injEq] at h
    exact Or.inl ⟨h.1.symm, h.2.1.symm, hc⟩

theorem pyenvVersionCheck_eq (version : String) (w : World) :
    pyenvVersionCheck version w
      = (Except.ok (w.pathTools.contains "pyenv" && versionListed version w), w,
          [ExtCall.pyenvVersionQuery]) := by
  unfold pyenvVersionCheck pyenvVersionQuery versionListed
  by_cases hp : w.pathTools.contains "pyenv" = true
  · rw [if_pos hp, hp]
    cases ho : w.pyenvVersionOutput <;> rfl
  · have hp' : w.pathTools.contains "pyenv" = false := by simpa using hp
    rw [if_neg (by rw [hp']; simp), hp']
    rfl

theorem installPythonSteps_spec (version : String) (w : World) :
    (w.sudoWorks = true ∧ (w.pathTools.contains "pyenv" && w.pyenvInstallWorks) = true
      ∧ installPythonSteps version w
          = (Except.ok (),
              { w with
                installedVersions := version :: w.installedVersions
                localVersion := some version },
              [ExtCall.sudoDisableAdmin, ExtCall.pyenvInstall version,
                ExtCall.pyenvLocalSet version, ExtCall.pyenvLocalQuery]))
      ∨ (∃ e w' t, installPythonSteps version w = (Except.error e, w', t)) := by
  unfold installPythonSteps disableAdminRights installVersion
  by_cases hs : w.sudoWorks = true
  · rw [if_pos hs]
    by_cases hpi : (w.pathTools.contains "pyenv" && w.pyenvInstallWorks) = true
    · left
      refine ⟨hs, hpi, ?_⟩
      obtain ⟨hpm, hpw⟩ : "pyenv" ∈ w.pathTools ∧ w.pyenvInstallWorks = true := by
        simpa using hpi
      unfold setLocalVersion getLocalVersion localSetOk
      simp [seqStep, hs, hpm, hpw]
    · right
      simp only [seqStep]
      rw [if_neg hpi]
      exact ⟨_, _, _, rfl⟩
  · rw [if_neg hs]
    right
    exact ⟨_, _, _, rfl⟩

theorem installPythonViaPyenv_eq (version : String) (w : World) :
    installPythonViaPyenv version w
      = (if (w.pathTools.contains "pyenv" && versionListed version w) = true then
          (Except.ok (), w, [ExtCall.pyenvVersionQuery])
        else
          ((installPythonSteps version w).1, (installPythonSteps version w).2.1,
            ExtCall.pyenvVersionQuery :: (installPythonSteps version w).2.2)) := by
  unfold installPythonViaPyenv
  rw [pyenvVersionCheck_eq]
  unfold seqStep
  by_cases hb : (w.pathTools.contains "pyenv" && versionListed version w) = true
  · rw [hb]
    rfl
  · have hb' : (w.pathTools.contains "pyenv" && versionListed version w) = false := by
      simpa using hb
    rw [hb']
    simp only []
    rcases hst : installPythonSteps version w with ⟨rs, ws, ts⟩
    rfl

theorem installPythonViaPyenv_ok_inv (version : String) (w : World)
    (w3 : World) (t : List ExtCall)
    (h : installPythonViaPyenv version w = (Except.ok (), w3, t)) :
    (w3 = w ∧ (w.pathTools.contains "pyenv" && versionListed version w) = true)
      ∨ (w3 = { w with
            installedVersions := version :: w.installedVersions
            localVersion := some version }
          ∧ w.pathTools.contains "pyenv" = true) := by
  rw [installPythonViaPyenv_eq] at h
  by_cases hb : (w.pathTools.contains "pyenv" && versionListed version w) = true
  · rw [if_pos hb] at h
    simp only [Prod.mk.injEq] at h
    exact Or.inl ⟨h.2.1.symm, hb⟩
  · rw [if_neg hb] at h
    rcases installPythonSteps_spec version w with ⟨hs, hpi, heq⟩ | ⟨e, w', t', heq⟩
    · rw [heq] at h
      simp only [Prod.mk.injEq] at h
      right
      refine ⟨h.2.1.symm, ?_⟩
      obtain ⟨hpm, -⟩ : "pyenv" ∈ w.pathTools ∧ w.pyenvInstallWorks = true := by
        simpa using hpi
      simpa using hpm
    · rw [heq] at h
      simp at h

theorem windowsBootstrap_nonwin_eq (w : World) (h : w.platform ≠ "win32") :
    windowsBootstrap w = (Except.ok (), w, []) := by
  unfold windowsBootstrap
  rw [if_neg h]

theorem windowsBootstrap_present_eq (w : World) (hwin : w.platform = "win32")
    (hp : w.pathTools.contains "pyenv" = true) :
    windowsBootstrap w = (Except.ok (), w, [ExtCall.probeCommand "pyenv"]) := by
  unfold windowsBootstrap probeTool seqStep
  rw [if_pos hwin, if_pos hwin, hp]
  rfl

theorem windowsBootstrap_ok_inv (w w1 : World) (t : List ExtCall)
    (h : windowsBootstrap w = (Except.ok (), w1, t)) :
    w1.platform = w.platform
      ∧ (w.platform = "win32" → w1.pathTools.contains "pyenv" = true) := by
  unfold windowsBootstrap at h
  by_cases hwin : w.platform = "win32"
  · rw [if_pos hwin] at h
    unfold probeTool seqStep at h
    rw [if_pos hwin] at h
    by_cases hp : w.pathTools.contains "pyenv" = true
    · rw [hp] at h
      simp only [Prod.mk.injEq] at h
      rw [← h.2.1]
      exact ⟨rfl, fun _ => hp⟩
    · have hp' : w.pathTools.contains "pyenv" = false := by simpa using hp
      rw [hp'] at h
      unfold installPyenvWin disableAdminRights seqStep at h
      simp only [] at h
      by_cases hs : w.sudoWorks = true
      · rw [if_pos hs] at h
        simp only [] at h
        by_cases hwi : w.winInstallerWorks = true
        · rw [if_pos hwi] at h
          simp only [Prod.mk.injEq] at h
          rw [← h.2.1]
          exact ⟨rfl, fun _ => by simp⟩
        · rw [if_neg hwi] at h
          simp at h
      · rw [if_neg hs] at h
        simp at h
  · rw [if_neg hwin] at h
    simp only [Prod.mk.injEq] at h
    rw [← h.2.1]
    exact ⟨rfl, fun hcontra => absurd hcontra hwin⟩

theorem installPyenv_ok_inv (root : String) (w w1 : World) (t : List ExtCall)
    (h : installPyenv root w = (Except.ok (), w1, t)) :
    w1.platform = w.platform
      ∧ w1.pathTools = "pyenv" :: w.pathTools
      ∧ w1.installedVersions = w.installedVersions
      ∧ w1.pythonReport = w.pythonReport
      ∧ w1.pyenvVersionOutput = w.pyenvVersionOutput
      ∧ w1.sudoWorks = w.sudoWorks
      ∧ w1.pyenvInstallWorks = w.pyenvInstallWorks := by
  unfold installPyenv at h
  by_cases hr : fsExists w root = true
  · rw [if_pos hr] at h
    simp only [Prod.mk.injEq] at h
    rw [← h.2.1]
    exact ⟨rfl, rfl, rfl, rfl, rfl, rfl, rfl⟩
  · rw [if_neg hr] at h
    by_cases hcl : w.cloneWorks = true
    · rw [if_pos hcl] at h
      simp only [Prod.mk.injEq] at h
      rw [← h.2.1]
      exact ⟨rfl, rfl, rfl, rfl, rfl, rfl, rfl⟩
    · rw [if_neg hcl] at h
      simp at h

theorem installThenLocate_ready (version : String) (w wi wg : World)
    (ti tg : List ExtCall) (q : String)
    (hi : installPythonViaPyenv version w = (Except.ok (), wi, ti))
    (hg : getPythonPathFromPyenv version wi = (Except.ok q, wg, tg))
    (hplat : platformSupported w = true) :
    (pyenvReady version wg || alreadyReady version wg) = true
      ∧ wg.pathTools.contains "pyenv" = true
      ∧ wg.platform = w.platform := by
  obtain ⟨hww, out, hrep, hq, hfs⟩ := getPythonPathFromPyenv_ok_inv version wi q wg tg hg
  rcases installPythonViaPyenv_ok_inv version w wi ti hi with ⟨hwi, hlisted⟩ | ⟨hwi, hpy⟩
  · rw [hwi] at hrep hfs
    obtain ⟨hpym, hlist⟩ : "pyenv" ∈ w.pathTools ∧ versionListed version w = true := by
      simpa using hlisted
    have hpyc : w.pathTools.contains "pyenv" = true := by simpa using hpym
    have hru : reportUsable w = true := by
      unfold reportUsable
      rw [hrep]
      exact hfs
    refine ⟨?_, ?_, ?_⟩
    · rw [hww, hwi]
      simp [alreadyReady, hpyc, hpym, hlist, hru, hplat]
    · rw [hww, hwi]
      exact hpyc
    · rw [hww, hwi]
  · rw [hwi] at hrep hfs
    have hpym : "pyenv" ∈ w.pathTools := by simpa using hpy
    have hrep' : w.pythonReport = some out := hrep
    have hfsm : jsTrim out ∈ w.fs := by simpa [fsExists] using hfs
    refine ⟨?_, ?_, ?_⟩
    · rw [hww, hwi]
      simp [pyenvReady, localSetOk, reportUsable, fsExists, hpym, hrep', hfsm]
    · rw [hww, hwi]
      exact hpy
    · rw [hww, hwi]

theorem installBranch_ok_inv (version pyenvPath : String) (w : World)
    (q : String) (w3 : World) (t3 : List ExtCall)
    (h : installBranch version pyenvPath w = (Except.ok q, w3, t3)) :
    (pyenvReady version w3
        || (alreadyReady version w3 && decide (w3.platform = "win32"))) = true
      ∧ w3.pathTools.contains "pyenv" = true := by
  unfold installBranch at h
  by_cases hwin : w.platform = "win32"
  · rw [if_pos hwin] at h
    unfold seqStep at h
    rcases hi : installPythonViaPyenv version w with ⟨ri, wi, ti⟩
    rw [hi] at h
    cases ri with
    | error e => simp at h
    | ok u =>
      simp only [] at h
      rcases hg : getPythonPathFromPyenv version wi with ⟨rg, wg, tg⟩
      rw [hg] at h
      cases rg with
      | error e => simp at h
      | ok qq =>
        simp only [Prod.mk.injEq, Except.ok.injEq] at h
        obtain ⟨hready, hpyc, hplat⟩ := installThenLocate_ready version w wi wg ti tg qq hi hg
          (by simp [platformSupported, hwin])
        rw [h.2.1] at hready hpyc hplat
        refine ⟨?_, hpyc⟩
        have hd : decide (w3.platform = "win32") = true := by simp [hplat, hwin]
        rcases (by simpa using hready :
            pyenvReady version w3 = true ∨ alreadyReady version w3 = true) with h1 | h1
        · simp [h1]
        · simp [h1, hd]
  · rw [if_neg hwin] at h
    by_cases hld : (decide (w.platform = "linux") || decide (w.platform = "darwin")) = true
    · rw [if_pos hld] at h
      unfold probeTool seqStep at h
      rw [if_neg hwin] at h
      simp at h
    · rw [if_neg hld] at h
      simp at h

theorem ensure_ok_ready (version pyenvPath : String) (venvPath : Option String)
    (w : World) (p : String) (wf : World) (t : List ExtCall)
    (h : ensurePythonInstalled version pyenvPath venvPath w = (Except.ok p, wf, t)) :
    ensureReady version venvPath wf = true := by
  unfold ensurePythonInstalled at h
  rcases hb : windowsBootstrap w with ⟨rb, w1, tb⟩
  rw [hb] at h
  unfold seqStep at h
  cases rb with
  | error e => simp at h
  | ok u =>
    simp only [] at h
    obtain ⟨hplat1, hwinfact⟩ := windowsBootstrap_ok_inv w w1 tb hb
    have hfirst : (if w1.platform = "win32" then w1.pathTools.contains "pyenv"
        else true) = true := by
      by_cases hw : w1.platform = "win32"
      · rw [if_pos hw]
        exact hwinfact (by rw [← hplat1]; exact hw)
      · rw [if_neg hw]
    rcases hf : findPython version venvPath w1 with ⟨rf, w2, tf⟩
    rw [hf] at h
    cases rf with
    | error e => simp at h
    | ok existing =>
      cases existing with
      | some q =>
        simp only [Prod.mk.injEq, Except.ok.injEq] at h
        by_cases hact : venvActive w1 venvPath = true
        · cases venvPath with
          | none => simp [venvActive] at hact
          | some vp =>
            have hab : (decide (vp ≠ "") && fsExists w1 vp) = true := hact
            by_cases hint : fsExists w1 (venvInteriorPython w1.platform vp) = true
            · rw [findPython_active_found_eq version vp w1 hab hint] at hf
              simp only [Prod.mk.injEq, Except.ok.injEq, Option.some.injEq] at hf
              have hw1f : w1 = wf := by rw [hf.2.1, h.2.1]
              rw [← hw1f]
              unfold ensureReady venvReady
              rw [hfirst]
              obtain ⟨hne, hfsv⟩ : ¬vp = "" ∧ fsExists w1 vp = true := by simpa using hab
              simp [hab, hint, hne, hfsv]
            · have hint' : fsExists w1 (venvInteriorPython w1.platform vp) = false := by
                simpa using hint
              rw [findPython_active_null_eq version vp w1 hab hint'] at hf
              simp at hf
        · have hact' : venvActive w1 venvPath = false := by simpa using hact
          rw [findPython_inactive_eq version venvPath w1 hact'] at hf
          rcases findPythonPyenvLookup_ok_inv version w1 (some q) w2 tf hf with
            ⟨hnone, -, -⟩ | ⟨out, hrep, hsome, hw2', hfs, hls⟩
          · exact absurd hnone (by simp)
          · have hwf : wf = { w1 with localVersion := some version } := by
              rw [← h.2.1, hw2']
            rw [hwf]
            have hru : reportUsable w1 = true := by
              unfold reportUsable
              rw [hrep]
              exact hfs
            obtain ⟨hpm, hvm⟩ : "pyenv" ∈ w1.pathTools ∧ version ∈ w1.installedVersions := by
              simpa [localSetOk] using hls
            have hfsm : jsTrim out ∈ w1.fs := by simpa [fsExists] using hfs
            have hactv : venvActive w1 venvPath = false := hact'
            simp [ensureReady, pyenvReady, localSetOk, reportUsable, fsExists,
              hfirst, hrep, hfsm, hpm, hvm]
      | none =>
        simp only [] at h
        rcases hib : installBranch version pyenvPath w2 with ⟨r3, w3, t3⟩
        rw [hib] at h
        cases r3 with
        | error e => simp at h
        | ok q =>
          simp only [Prod.mk.injEq, Except.ok.injEq] at h
          obtain ⟨hor, hpyc⟩ := installBranch_ok_inv version pyenvPath w2 q w3 t3 hib
          rw [h.2.1] at hor hpyc
          have hfirst2 : (if wf.platform = "win32" then wf.pathTools.contains "pyenv"
              else true) = true := by
            by_cases hw : wf.platform = "win32"
            · rw [if_pos hw]
              exact hpyc
            · rw [if_neg hw]
          unfold ensureReady
          rw [hfirst2]
          rcases (by simpa using hor : pyenvReady version wf = true
              ∨ (alreadyReady version wf = true ∧ wf.platform = "win32")) with h1 | ⟨h1, h2⟩
          · simp [h1]
          · simp [h1, h2]

theorem reportUsable_inv (w : World) (hru : reportUsable w = true) :
    ∃ out, w.pythonReport = some out ∧ fsExists w (jsTrim out) = true := by
  unfold reportUsable at hru
  cases ho : w.pythonReport with
  | none => rw [ho] at hru; exact absurd hru (by simp)
  | some o => rw [ho] at hru; exact ⟨o, rfl, hru⟩

theorem lookup_found_run (version pyenvPath : String) (venvPath : Option String)
    (w : World) (tb : List ExtCall)
    (hbeq : windowsBootstrap w = (Except.ok (), w, tb))
    (hact' : venvActive w venvPath = false)
    (hls : localSetOk version w = true) (hru : reportUsable w = true) :
    ∃ out, ensurePythonInstalled version pyenvPath venvPath w
        = (Except.ok (jsTrim out), { w with localVersion := some version },
            tb ++ [ExtCall.pyenvLocalSet version, ExtCall.pythonSelfProbe]) := by
  obtain ⟨out, hrep, hfs⟩ := reportUsable_inv w hru
  have hfind0 := findPython_inactive_eq version venvPath w hact'
  have hlook := findPythonPyenvLookup_found_eq version w out hls hrep hfs
  refine ⟨out, ?_⟩
  unfold ensurePythonInstalled
  rw [hbeq]
  unfold seqStep
  simp only []
  rw [hfind0, hlook]
  simp

theorem ready_ensure_clean (version pyenvPath : String) (venvPath : Option String)
    (w : World)
    (hready : ensureReady version venvPath w = true)
    (hvenv : venvActive w venvPath = true → venvReady w venvPath = true) :
    ∃ q wf tf, ensurePythonInstalled version pyenvPath venvPath w
        = (Except.ok q, wf, tf) ∧ ∀ c ∈ tf, isInstallCall c = false := by
  obtain ⟨hfirst, hpaths⟩ :
      (if w.platform = "win32" then w.pathTools.contains "pyenv" else true) = true
        ∧ (venvReady w venvPath || pyenvReady version w
            || (alreadyReady version w && decide (w.platform = "win32"))) = true := by
    have h0 := hready
    unfold ensureReady at h0
    rw [Bool.and_eq_true] at h0
    exact h0
  obtain ⟨tb, hbeq, hbclean⟩ :
      ∃ tb, windowsBootstrap w = (Except.ok (), w, tb)
        ∧ ∀ c ∈ tb, isInstallCall c = false := by
    by_cases hwin : w.platform = "win32"
    · refine ⟨[ExtCall.probeCommand "pyenv"], windowsBootstrap_present_eq w hwin ?_, ?_⟩
      · rw [if_pos hwin] at hfirst
        exact hfirst
      · intro c hc
        simp at hc
        rw [hc]
        rfl
    · exact ⟨[], windowsBootstrap_nonwin_eq w hwin, by simp⟩
  by_cases hact : venvActive w venvPath = true
  · have hvr := hvenv hact
    cases venvPath with
    | none => simp [venvActive] at hact
    | some vp =>
      have hvr' : (decide (vp ≠ "") && fsExists w vp
          && fsExists w (venvInteriorPython w.platform vp)) = true := hvr
      have hab : (decide (vp ≠ "") && fsExists w vp) = true := hact
      have hc : fsExists w (venvInteriorPython w.platform vp) = true := by
        rw [Bool.and_eq_true] at hvr'
        exact hvr'.2
      have hfind := findPython_active_found_eq version vp w hab hc
      refine ⟨venvInteriorPython w.platform vp, w, tb, ?_, hbclean⟩
      unfold ensurePythonInstalled
      rw [hbeq]
      unfold seqStep
      simp only []
      rw [hfind]
      simp
  · have hact' : venvActive w venvPath = false := by simpa using hact
    have hvrf : venvReady w venvPath = false := by
      cases venvPath with
      | none => rfl
      | some vp =>
        have hvaf : (decide (vp ≠ "") && fsExists w vp) = false := hact'
        unfold venvReady
        dsimp only
        rw [hvaf]
        simp
    have hor : pyenvReady version w = true
        ∨ (alreadyReady version w = true ∧ w.platform = "win32") := by
      have h0 := hpaths
      rw [hvrf] at h0
      simpa using h0
    rcases hor with hpy | halr
    · obtain ⟨hls, hru⟩ : localSetOk version w = true ∧ reportUsable w = true := by
        have h0 := hpy
        unfold pyenvReady at h0
        rw [Bool.and_eq_true] at h0
        exact h0
      obtain ⟨out, heq⟩ := lookup_found_run version pyenvPath venvPath w tb hbeq hact' hls hru
      refine ⟨jsTrim out, _, _, heq, ?_⟩
      intro c hc
      rcases List.mem_append.mp hc with h1 | h2
      · exact hbclean c h1
      · rcases (by simpa using h2 :
            c = ExtCall.pyenvLocalSet version ∨ c = ExtCall.pythonSelfProbe)
          with h3 | h3 <;> rw [h3] <;> rfl
    · obtain ⟨halr2, hwin⟩ := halr
      have htmp := halr2
      unfold alreadyReady at htmp
      simp only [Bool.and_eq_true] at htmp
      obtain ⟨⟨⟨hpyc, hlist⟩, hru⟩, hplat⟩ := htmp
      by_cases hls : localSetOk version w = true
      · obtain ⟨out, heq⟩ := lookup_found_run version pyenvPath venvPath w tb hbeq hact' hls hru
        refine ⟨jsTrim out, _, _, heq, ?_⟩
        intro c hc
        rcases List.mem_append.mp hc with h1 | h2
        · exact hbclean c h1
        · rcases (by simpa using h2 :
              c = ExtCall.pyenvLocalSet version ∨ c = ExtCall.pythonSelfProbe)
            with h3 | h3 <;> rw [h3] <;> rfl
      · have hls' : localSetOk version w = false := by simpa using hls
        have hlook := findPythonPyenvLookup_none_eq version w hls'
        have hfind0 := findPython_inactive_eq version venvPath w hact'
        obtain ⟨out, hrep, hfs⟩ := reportUsable_inv w hru
        have hget := getPythonPathFromPyenv_ok_eq version w out hrep hfs
        have hbva : (w.pathTools.contains "pyenv" && versionListed version w) = true := by
          rw [hpyc, hlist]
          rfl
        have hinst : installPythonViaPyenv version w
            = (Except.ok (), w, [ExtCall.pyenvVersionQuery]) := by
          rw [installPythonViaPyenv_eq, if_pos hbva]
        obtain ⟨tbr, hbreq, hbrclean⟩ :
            ∃ tbr, installBranch version pyenvPath w = (Except.ok (jsTrim out), w, tbr)
              ∧ ∀ c ∈ tbr, isInstallCall c = false := by
          refine ⟨[ExtCall.pyenvVersionQuery, ExtCall.pythonSelfProbe], ?_, ?_⟩
          · unfold installBranch
            rw [if_pos hwin]
            unfold seqStep
            rw [hinst]
            simp only []
            rw [hget]
            rfl
          · intro c hc
            rcases (by simpa using hc :
                c = ExtCall.pyenvVersionQuery ∨ c = ExtCall.pythonSelfProbe)
              with h3 | h3 <;> rw [h3] <;> rfl
        refine ⟨jsTrim out, w, tb ++ (ExtCall.pyenvLocalSet version :: tbr), ?_, ?_⟩
        · unfold ensurePythonInstalled
          rw [hbeq]
          unfold seqStep
          simp only []
          rw [hfind0, hlook]
          simp only []
          rw [hbreq]
          rfl
        · intro c hc
          rcases List.mem_append.mp hc with h1 | h2
          · exact hbclean c h1
          · rcases List.mem_cons.mp h2 with h3 | h3
            · rw [h3]
              rfl
            · exact hbrclean c h3

/-- Counterexample to C3 as stated: on win32 — where the probe's lookup
binary `where` exists, so `commandExists` genuinely resolves — in a
world where the venv hint path exists but lacks its interior
`Scripts\python.exe`, the first `ensurePythonInstalled` call succeeds
through the install branch, yet the second call — with nothing external
changed — repeats the install branch and invokes `pyenv install` again,
instead of resolving through the existing-installation lookup with zero
install invocations. -/
theorem ensure_idempotent_cex :
    (ensurePythonInstalled "3.9.1" "/opt/pyenv" (some "/venv")
        { platform := "win32", fs := ["/venv", "C:\\py\\python.exe"],
          pathTools := ["pyenv"], installedVersions := [], localVersion := none,
          pyenvVersionOutput := none, pythonReport := some "C:\\py\\python.exe",
          winInstallerWorks := false, cloneWorks := false, sudoWorks := true,
          pyenvInstallWorks := true }).1
        = Except.ok "C:\\py\\python.exe"
      ∧ ((ensurePythonInstalled "3.9.1" "/opt/pyenv" (some "/venv")
          (ensurePythonInstalled "3.9.1" "/opt/pyenv" (some "/venv")
            { platform := "win32", fs := ["/venv", "C:\\py\\python.exe"],
              pathTools := ["pyenv"], installedVersions := [], localVersion := none,
              pyenvVersionOutput := none, pythonReport := some "C:\\py\\python.exe",
              winInstallerWorks := false, cloneWorks := false, sudoWorks := true,
              pyenvInstallWorks := true }).2.1).2.2).contains
          (ExtCall.pyenvInstall "3.9.1") = true := by
  constructor <;> rfl

/-- C3 (amended): after a successful `ensurePythonInstalled`, a second
call with the same arguments and no external change performs no
installation side effect (no pyenv-win bootstrap, no pyenv clone, no
`pyenv install`) and resolves successfully through the
existing-installation lookup — provided the unchanged venv hint is not
in the broken state "directory exists without its interior executable",
in which state both calls repeat the install branch. -/
theorem ensure_idempotent (version pyenvPath : String) (venvPath : Option String)
    (w : World) (p : String) (wf : World) (t : List ExtCall)
    (h1 : ensurePythonInstalled version pyenvPath venvPath w = (Except.ok p, wf, t))
    (h2 : venvActive wf venvPath = true → venvReady wf venvPath = true) :
    (∃ q, (ensurePythonInstalled version pyenvPath venvPath wf).1 = Except.ok q)
      ∧ ∀ c ∈ (ensurePythonInstalled version pyenvPath venvPath wf).2.2,
          isInstallCall c = false := by
  obtain ⟨q, wf2, t2, heq, hclean⟩ := ready_ensure_clean version pyenvPath venvPath wf
    (ensure_ok_ready version pyenvPath venvPath w p wf t h1) h2
  constructor
  · exact ⟨q, by rw [heq]⟩
  · intro c hc
    rw [heq] at hc
    exact hclean c hc

/-- Witness for the amended C3: a posix world with a usable venv; the
first call finds it, and the second call resolves with no install
invocation. -/
theorem ensure_idempotent_witness :
    (∃ q, (ensurePythonInstalled "3.9.1" "/opt/pyenv" (some "/venv")
        { platform := "linux", fs := ["/venv", "/venv/bin/python"], pathTools := [],
          installedVersions := [], localVersion := none, pyenvVersionOutput := none,
          pythonReport := none, winInstallerWorks := false, cloneWorks := false,
          sudoWorks := false, pyenvInstallWorks := false }).1 = Except.ok q)
      ∧ ∀ c ∈ (ensurePythonInstalled "3.9.1" "/opt/pyenv" (some "/venv")
          { platform := "linux", fs := ["/venv", "/venv/bin/python"], pathTools := [],
            installedVersions := [], localVersion := none, pyenvVersionOutput := none,
            pythonReport := none, winInstallerWorks := false, cloneWorks := false,
            sudoWorks := false, pyenvInstallWorks := false }).2.2,
          isInstallCall c = false :=
  ensure_idempotent "3.9.1" "/opt/pyenv" (some "/venv")
    { platform := "linux", fs := ["/venv", "/venv/bin/python"], pathTools := [],
      installedVersions := [], localVersion := none, pyenvVersionOutput := none,
      pythonReport := none, winInstallerWorks := false, cloneWorks := false,
      sudoWorks := false, pyenvInstallWorks := false }
    "/venv/bin/python"
    { platform := "linux", fs := ["/venv", "/venv/bin/python"], pathTools := [],
      installedVersions := [], localVersion := none, pyenvVersionOutput := none,
      pythonReport := none, winInstallerWorks := false, cloneWorks := false,
      sudoWorks := false, pyenvInstallWorks := false }
    [] (by rfl) (fun _ => by rfl)

/-- C4: with a (non-empty) venv hint path that exists on the
filesystem, `findPython` answers from the hint alone — it returns
exactly the platform-specific interior executable
(`Scripts\python.exe` on Windows-class, `bin/python` on posix-class)
when that interior path exists, and resolves to absent when it does not,
in both cases invoking no external command at all (in particular never
the version-management tool) and never falling through to the pyenv
lookup. -/
theorem findPython_venv_short_circuit (w : World) (version vp : String)
    (hvp : vp ≠ "") (hfs : fsExists w vp = true) :
    (fsExists w (venvInteriorPython w.platform vp) = true →
      findPython version (some vp) w
        = (Except.ok (some (venvInteriorPython w.platform vp)), w, []))
    ∧ (fsExists w (venvInteriorPython w.platform vp) = false →
      findPython version (some vp) w = (Except.ok none, w, []))
    ∧ venvInteriorPython "win32" vp = vp ++ "\\Scripts\\python.exe"
    ∧ venvInteriorPython "linux" vp = vp ++ "/bin/python" := by
  refine ⟨?_, ?_, by simp [venvInteriorPython], ?_⟩
  · intro h
    simp [findPython, hvp, hfs, h]
  · intro h
    simp [findPython, hvp, hfs, h]
  · rw [venvInteriorPython, if_neg (by decide)]

/-- Witness for C4: a posix world whose venv directory contains
`bin/python`, and one whose venv directory lacks it. -/
theorem findPython_venv_short_circuit_witness :
    findPython "3.9.1" (some "/venv")
        { platform := "linux", fs := ["/venv", "/venv/bin/python"], pathTools := ["pyenv"],
          installedVersions := [], localVersion := none, pyenvVersionOutput := none,
          pythonReport := none, winInstallerWorks := true, cloneWorks := true,
          sudoWorks := true, pyenvInstallWorks := true }
        = (Except.ok (some "/venv/bin/python"),
            { platform := "linux", fs := ["/venv", "/venv/bin/python"], pathTools := ["pyenv"],
              installedVersions := [], localVersion := none, pyenvVersionOutput := none,
              pythonReport := none, winInstallerWorks := true, cloneWorks := true,
              sudoWorks := true, pyenvInstallWorks := true }, [])
      ∧ findPython "3.9.1" (some "/venv")
          { platform := "linux", fs := ["/venv"], pathTools := ["pyenv"],
            installedVersions := [], localVersion := none, pyenvVersionOutput := none,
            pythonReport := none, winInstallerWorks := true, cloneWorks := true,
            sudoWorks := true, pyenvInstallWorks := true }
          = (Except.ok none,
              { platform := "linux", fs := ["/venv"], pathTools := ["pyenv"],
                installedVersions := [], localVersion := none, pyenvVersionOutput := none,
                pythonReport := none, winInstallerWorks := true, cloneWorks := true,
                sudoWorks := true, pyenvInstallWorks := true }, []) := by
  constructor
  · have h := (findPython_venv_short_circuit
      { platform := "linux", fs := ["/venv", "/venv/bin/python"], pathTools := ["pyenv"],
        installedVersions := [], localVersion := none, pyenvVersionOutput := none,
        pythonReport := none, winInstallerWorks := true, cloneWorks := true,
        sudoWorks := true, pyenvInstallWorks := true }
      "3.9.1" "/venv" (by decide) (by decide)).1 (by decide)
    simpa [venvInteriorPython] using h
  · have h := (findPython_venv_short_circuit
      { platform := "linux", fs := ["/venv"], pathTools := ["pyenv"],
        installedVersions := [], localVersion := none, pyenvVersionOutput := none,
        pythonReport := none, winInstallerWorks := true, cloneWorks := true,
        sudoWorks := true, pyenvInstallWorks := true }
      "3.9.1" "/venv" (by decide) (by decide)).2.1 (by decide)
    simpa [venvInteriorPython] using h

/-- Counterexample to C6 as stated: on the unsupported platform `aix`,
with a usable venv hint, `ensurePythonInstalled` does not fail at all —
the existing-installation lookup runs first and its result is returned,
so the call resolves successfully instead of failing immediately with
the unsupported-platform error. -/
theorem ensure_unsupported_cex :
    (ensurePythonInstalled "3.9.1" "/opt/pyenv" (some "/venv")
        { platform := "aix", fs := ["/venv", "/venv/bin/python"], pathTools := [],
          installedVersions := [], localVersion := none, pyenvVersionOutput := none,
          pythonReport := none, winInstallerWorks := false, cloneWorks := false,
          sudoWorks := false, pyenvInstallWorks := false }).1
      = Except.ok "/venv/bin/python" := by rfl

/-- C6 (amended): on a platform that is neither Windows-class nor
posix-class, `ensurePythonInstalled` skips the manager probe and all
installation steps, but still attempts the existing-installation lookup
first: it returns a found installation, and only when the lookup comes
back empty does it fail with the unsupported-platform error (lookup
errors propagate as themselves). -/
theorem ensure_unsupported_platform (w : World) (version pyenvPath : String)
    (venvPath : Option String)
    (h1 : w.platform ≠ "win32") (h2 : w.platform ≠ "linux") (h3 : w.platform ≠ "darwin") :
    ensurePythonInstalled version pyenvPath venvPath w
      = (match findPython version venvPath w with
         | (Except.ok (some p), w1, t1) => (Except.ok p, w1, t1)
         | (Except.ok none, w1, t1) =>
           (Except.error "Unsupported platform for automatic Python installation", w1, t1)
         | (Except.error e, w1, t1) => (Except.error e, w1, t1))
      ∧ ∀ c ∈ (ensurePythonInstalled version pyenvPath venvPath w).2.2,
          isInstallCall c = false ∧ c ≠ ExtCall.probeCommand "pyenv" := by
  have hboot : windowsBootstrap w = (Except.ok (), w, []) := by
    unfold windowsBootstrap
    rw [if_neg h1]
  have hmain : ensurePythonInstalled version pyenvPath venvPath w
      = (match findPython version venvPath w with
         | (Except.ok (some p), w1, t1) => (Except.ok p, w1, t1)
         | (Except.ok none, w1, t1) =>
           (Except.error "Unsupported platform for automatic Python installation", w1, t1)
         | (Except.error e, w1, t1) => (Except.error e, w1, t1)) := by
    unfold ensurePythonInstalled
    simp only [hboot, seqStep]
    rcases hfp : findPython version venvPath w with ⟨r, w1, t1⟩
    have hworld := findPython_world version venvPath w
    rw [hfp] at hworld
    simp only [] at hworld
    have hp1 : w1.platform = w.platform := by
      rcases hworld with h | h <;> rw [h]
    rcases r with e | ex
    · simp
    · rcases ex with _ | p
      · have hib : installBranch version pyenvPath w1
            = (Except.error "Unsupported platform for automatic Python installation",
                w1, []) := by
          unfold installBranch
          rw [if_neg (by rw [hp1]; exact h1), if_neg (by simp [hp1, h2, h3])]
        simp [hib]
      · simp
  refine ⟨hmain, ?_⟩
  intro c hc
  rw [hmain] at hc
  rcases hfp : findPython version venvPath w with ⟨r, w1, t1⟩
  have hcalls := findPython_calls version venvPath w
  rw [hfp] at hcalls hc
  have hmem : c ∈ t1 := by
    rcases r with e | ex
    · simpa using hc
    · rcases ex with _ | p <;> simpa using hc
  rcases hcalls c hmem with h | h <;> subst h <;> simp [isInstallCall]

/-- Witness for the amended C6: on `aix` with no usable installation the
call fails with the unsupported-platform error after one `pyenv local`
lookup attempt and no probe or install invocation. -/
theorem ensure_unsupported_platform_witness :
    (ensurePythonInstalled "3.9.1" "/opt/pyenv" none
        { platform := "aix", fs := [], pathTools := [],
          installedVersions := [], localVersion := none, pyenvVersionOutput := none,
          pythonReport := none, winInstallerWorks := false, cloneWorks := false,
          sudoWorks := false, pyenvInstallWorks := false })
      = (Except.error "Unsupported platform for automatic Python installation",
          { platform := "aix", fs := [], pathTools := [],
            installedVersions := [], localVersion := none, pyenvVersionOutput := none,
            pythonReport := none, winInstallerWorks := false, cloneWorks := false,
            sudoWorks := false, pyenvInstallWorks := false },
          [ExtCall.pyenvLocalSet "3.9.1"]) := by
  have h := (ensure_unsupported_platform
    { platform := "aix", fs := [], pathTools := [],
      installedVersions := [], localVersion := none, pyenvVersionOutput := none,
      pythonReport := none, winInstallerWorks := false, cloneWorks := false,
      sudoWorks := false, pyenvInstallWorks := false }
    "3.9.1" "/opt/pyenv" none (by decide) (by decide) (by decide)).1
  rw [h]
  rfl

/-- C10: `deleteVenv` clears the cached venv interpreter for every
argument path — even one unrelated to the cached venv — leaves the base
python path and version untouched, and afterwards every operation
without an explicit override selects the base python path. -/
theorem deleteVenv_clears_cached_interpreter (st : PythonManagerState) (venvPath : String) :
    (st.deleteVenv venvPath).1.venvPythonPath = none
      ∧ (st.deleteVenv venvPath).1.pythonPath = st.pythonPath
      ∧ (st.deleteVenv venvPath).1.pythonVersion = st.pythonVersion
      ∧ (st.deleteVenv venvPath).2 = venvPath
      ∧ selectPythonPath (st.deleteVenv venvPath).1 none = st.pythonPath := by
  refine ⟨rfl, rfl, rfl, rfl, rfl⟩

end PythonManagerSpec
